import Mathlib

/-!
Shallow embedding of the metrics aggregator of this repository
(`src/utils/metricsStore.js`): the `MetricsStore` class, its constructor
state and its operations `recordRequest`, `calculateRequestsPerMinute`,
`getMetrics`, `resetMetrics`, `getHealthSummary`.

Modelling choices:
* JS numbers are modelled exactly: status codes as `Int`, latencies as `Nat`
  (the middleware computes them as `Date.now()` differences, hence
  non-negative integers), counters as `Nat`.
* `minResponseTime` is initialised to `Infinity` in the source; we model the
  field as `WithTop Nat`, with `⊤` for `Infinity`.
* `Math.round` on a non-negative quotient `a / b` rounds half up, i.e. it is
  `⌊(2*a + b) / (2*b)⌋`; `jsRound` computes exactly that in `Nat` arithmetic.
* The ISO-8601 `timestamp` strings are stored and later parsed back by
  `new Date(...)`; we model a timestamp directly as epoch milliseconds
  (`Int`), with parsing the identity.
* `array.push` is append, `array.slice(-1000)` keeps the last 1000 elements,
  `array.unshift` is prepend, `array.slice(0, 50)` is `take 50`.
-/

namespace MetricsStore

/-- The argument object of `recordRequest` (built by the middleware
`metricsCollector.js`). -/
structure RequestData where
  statusCode : Int
  responseTime : Nat
  method : String
  path : String
  timestamp : Int
  ip : String
  deriving DecidableEq

/-- An entry of `metrics.recentRequests` as built inside `recordRequest`. -/
structure RequestRecord where
  method : String
  path : String
  statusCode : Int
  responseTime : Nat
  timestamp : Int
  ip : String
  deriving DecidableEq

/-- The `metrics.requests` sub-object. -/
structure Requests where
  total : Nat
  success : Nat
  errors : Nat
  perMinute : Nat
  peakRPM : Nat
  deriving DecidableEq

/-- The `metrics.performance` sub-object; `minResponseTime` starts at
`Infinity`, modelled as `⊤ : WithTop Nat`. -/
structure Performance where
  responseTimes : List Nat
  averageResponseTime : Nat
  minResponseTime : WithTop Nat
  maxResponseTime : Nat
  deriving DecidableEq

/-- The whole `this.metrics` object. -/
structure MetricsState where
  requests : Requests
  performance : Performance
  recentRequests : List RequestRecord
  deriving DecidableEq

/-- The state installed by the `MetricsStore` constructor. -/
def initialMetrics : MetricsState :=
  { requests := { total := 0, success := 0, errors := 0, perMinute := 0, peakRPM := 0 }
    performance := { responseTimes := [], averageResponseTime := 0
                     minResponseTime := ⊤, maxResponseTime := 0 }
    recentRequests := [] }

/-- `Math.round (a / b)` for non-negative operands: round half up. -/
def jsRound (a b : Nat) : Nat := (2 * a + b) / (2 * b)

/-- `ip?.substring(0, 10) + '...'` (the IP is always a string here). -/
def truncIp (ip : String) : String := ip.take 10 ++ "..."

/-- The record literal pushed onto `recentRequests` inside `recordRequest`. -/
def toRecord (rd : RequestData) : RequestRecord :=
  { method := rd.method, path := rd.path, statusCode := rd.statusCode
    responseTime := rd.responseTime, timestamp := rd.timestamp
    ip := truncIp rd.ip }

/-- `MetricsStore.recordRequest(requestData)` (lines 36-84 of the source):
increments `total`; increments `success` when `statusCode >= 200 &&
statusCode < 400`, else `errors`; pushes the latency and keeps only the last
1000 samples; updates the running min/max by comparison; recomputes
`averageResponseTime` as `Math.round(sum / length)` over the sliced buffer;
prepends the truncated record to `recentRequests` and keeps only the first
50 entries. -/
def recordRequest (rd : RequestData) (s : MetricsState) : MetricsState :=
  let total := s.requests.total + 1
  let success := if 200 ≤ rd.statusCode ∧ rd.statusCode < 400
    then s.requests.success + 1 else s.requests.success
  let errors := if 200 ≤ rd.statusCode ∧ rd.statusCode < 400
    then s.requests.errors else s.requests.errors + 1
  let rts0 := s.performance.responseTimes ++ [rd.responseTime]
  let rts := if 1000 < rts0.length then rts0.drop (rts0.length - 1000) else rts0
  let minRT := if (rd.responseTime : WithTop Nat) < s.performance.minResponseTime
    then (rd.responseTime : WithTop Nat) else s.performance.minResponseTime
  let maxRT := if s.performance.maxResponseTime < rd.responseTime
    then rd.responseTime else s.performance.maxResponseTime
  let avg := jsRound (rts.foldl (fun sum t => sum + t) 0) rts.length
  let recents0 := toRecord rd :: s.recentRequests
  let recents := if 50 < recents0.length then recents0.take 50 else recents0
  { requests := { total := total, success := success, errors := errors
                  perMinute := s.requests.perMinute, peakRPM := s.requests.peakRPM }
    performance := { responseTimes := rts, averageResponseTime := avg
                     minResponseTime := minRT, maxResponseTime := maxRT }
    recentRequests := recents }

/-- `MetricsStore.calculateRequestsPerMinute()` (lines 86-102): counts the
entries of `recentRequests` whose timestamp is at least `now - 60000`,
stores the count in `perMinute`, and raises `peakRPM` to it when larger.
`now` (the value of `new Date()` at invocation) is passed explicitly. -/
def calculateRequestsPerMinute (now : Int) (s : MetricsState) : MetricsState :=
  let oneMinuteAgo := now - 60000
  let cnt := (s.recentRequests.filter (fun r => decide (oneMinuteAgo ≤ r.timestamp))).length
  let peak := if s.requests.peakRPM < cnt then cnt else s.requests.peakRPM
  { s with requests := { s.requests with perMinute := cnt, peakRPM := peak } }

/-- `MetricsStore.resetMetrics()` (lines 111-128): reassigns `this.metrics`
to a fresh object literal identical to the constructor's. -/
def resetMetrics (_s : MetricsState) : MetricsState :=
  { requests := { total := 0, success := 0, errors := 0, perMinute := 0, peakRPM := 0 }
    performance := { responseTimes := [], averageResponseTime := 0
                     minResponseTime := ⊤, maxResponseTime := 0 }
    recentRequests := [] }

/-- Return value of `MetricsStore.getHealthSummary()` (lines 130-143). -/
structure HealthSummary where
  healthy : Bool
  successRate : Nat
  averageResponseTime : Nat
  totalRequests : Nat
  errors : Nat
  deriving DecidableEq

/-- `MetricsStore.getHealthSummary()`: `successRate` is
`Math.round((success / total) * 100)` when `total > 0`, else `100`;
`healthy` is `successRate >= 95 && averageResponseTime < 1000`. -/
def getHealthSummary (s : MetricsState) : HealthSummary :=
  let totalRequests := s.requests.total
  let successRate := if 0 < totalRequests
    then jsRound (100 * s.requests.success) totalRequests else 100
  { healthy := decide (95 ≤ successRate) && decide (s.performance.averageResponseTime < 1000)
    successRate := successRate
    averageResponseTime := s.performance.averageResponseTime
    totalRequests := totalRequests
    errors := s.requests.errors }

/-- Fold a list of `recordRequest` calls over a starting state. -/
def applyFrom (s : MetricsState) (rds : List RequestData) : MetricsState :=
  rds.foldl (fun s rd => recordRequest rd s) s

/-- A sequence of `recordRequest` calls from the freshly constructed store. -/
def applyAll (rds : List RequestData) : MetricsState :=
  applyFrom initialMetrics rds

/-! ### Field-projection lemmas for `recordRequest` -/

lemma recordRequest_total (rd : RequestData) (s : MetricsState) :
    (recordRequest rd s).requests.total = s.requests.total + 1 := rfl

lemma recordRequest_success (rd : RequestData) (s : MetricsState) :
    (recordRequest rd s).requests.success =
      if 200 ≤ rd.statusCode ∧ rd.statusCode < 400
        then s.requests.success + 1 else s.requests.success := rfl

lemma recordRequest_errors (rd : RequestData) (s : MetricsState) :
    (recordRequest rd s).requests.errors =
      if 200 ≤ rd.statusCode ∧ rd.statusCode < 400
        then s.requests.errors else s.requests.errors + 1 := rfl

lemma recordRequest_perMinute (rd : RequestData) (s : MetricsState) :
    (recordRequest rd s).requests.perMinute = s.requests.perMinute := rfl

lemma recordRequest_peakRPM (rd : RequestData) (s : MetricsState) :
    (recordRequest rd s).requests.peakRPM = s.requests.peakRPM := rfl

lemma recordRequest_responseTimes (rd : RequestData) (s : MetricsState) :
    (recordRequest rd s).performance.responseTimes =
      (fun rts0 => if 1000 < rts0.length then rts0.drop (rts0.length - 1000) else rts0)
        (s.performance.responseTimes ++ [rd.responseTime]) := rfl

lemma recordRequest_minResponseTime (rd : RequestData) (s : MetricsState) :
    (recordRequest rd s).performance.minResponseTime =
      min s.performance.minResponseTime (rd.responseTime : WithTop Nat) := by
  show (if (rd.responseTime : WithTop Nat) < s.performance.minResponseTime
      then (rd.responseTime : WithTop Nat) else s.performance.minResponseTime) = _
  rcases lt_or_le (rd.responseTime : WithTop Nat) s.performance.minResponseTime with h | h
  · simp [h, min_eq_right h.le]
  · simp [not_lt.mpr h, min_eq_left h]

lemma recordRequest_maxResponseTime (rd : RequestData) (s : MetricsState) :
    (recordRequest rd s).performance.maxResponseTime =
      max s.performance.maxResponseTime rd.responseTime := by
  show (if s.performance.maxResponseTime < rd.responseTime
      then rd.responseTime else s.performance.maxResponseTime) = _
  rcases lt_or_le s.performance.maxResponseTime rd.responseTime with h | h
  · simp [h, max_eq_right h.le]
  · simp [not_lt.mpr h, max_eq_left h]

lemma recordRequest_recentRequests (rd : RequestData) (s : MetricsState) :
    (recordRequest rd s).recentRequests =
      (fun l0 => if 50 < l0.length then l0.take 50 else l0)
        (toRecord rd :: s.recentRequests) := rfl

/-- Invariants preserved by single `recordRequest` steps hold along every
fold of `recordRequest` calls. -/
lemma applyFrom_inv (P : MetricsState → Prop)
    (step : ∀ s rd, P s → P (recordRequest rd s)) :
    ∀ (rds : List RequestData) (s : MetricsState), P s → P (applyFrom s rds) := by
  intro rds
  induction rds with
  | nil => intro s hs; exact hs
  | cons rd rds ih =>
      intro s hs
      exact ih (recordRequest rd s) (step s rd hs)

/-- C1: after every sequence of `recordRequest` calls from the fresh store,
`requests.total = requests.success + requests.errors`. -/
theorem total_eq_success_add_errors (rds : List RequestData) :
    (applyAll rds).requests.total =
      (applyAll rds).requests.success + (applyAll rds).requests.errors := by
  refine applyFrom_inv
    (fun s => s.requests.total = s.requests.success + s.requests.errors) ?_ rds
    initialMetrics rfl
  intro s rd hs
  by_cases h : 200 ≤ rd.statusCode ∧ rd.statusCode < 400
  · simp [recordRequest_total, recordRequest_success, recordRequest_errors, h]
    omega
  · simp [recordRequest_total, recordRequest_success, recordRequest_errors, h]
    omega

/-- C2: `recordRequest` classifies status codes in 200–399 (inclusive) as
successes and every other status code as an error, and always increments
the total counter. -/
theorem statusCode_classification :
    (∀ (s : MetricsState) (rd : RequestData),
        200 ≤ rd.statusCode → rd.statusCode ≤ 399 →
        (recordRequest rd s).requests.success = s.requests.success + 1 ∧
        (recordRequest rd s).requests.errors = s.requests.errors) ∧
    (∀ (s : MetricsState) (rd : RequestData),
        rd.statusCode < 200 ∨ 400 ≤ rd.statusCode →
        (recordRequest rd s).requests.errors = s.requests.errors + 1 ∧
        (recordRequest rd s).requests.success = s.requests.success) ∧
    (∀ (s : MetricsState) (rd : RequestData),
        (recordRequest rd s).requests.total = s.requests.total + 1) := by
  refine ⟨?_, ?_, ?_⟩
  · intro s rd h1 h2
    have h : 200 ≤ rd.statusCode ∧ rd.statusCode < 400 := ⟨h1, by omega⟩
    simp [recordRequest_success, recordRequest_errors, h]
  · intro s rd h1
    have h : ¬(200 ≤ rd.statusCode ∧ rd.statusCode < 400) := by omega
    simp [recordRequest_success, recordRequest_errors, h]
  · intro s rd
    exact recordRequest_total rd s

/-- Sample input records for witnesses and counterexamples. -/
def sampleRd (code : Int) (t : Nat) : RequestData :=
  { statusCode := code, responseTime := t, method := "GET", path := "/"
    timestamp := 0, ip := "127.0.0.1" }

/-- Witness for C2 at status codes 200 (success) and 500 (error). -/
theorem statusCode_classification_witness :
    ((recordRequest (sampleRd 200 1) initialMetrics).requests.success =
        initialMetrics.requests.success + 1 ∧
      (recordRequest (sampleRd 200 1) initialMetrics).requests.errors =
        initialMetrics.requests.errors) ∧
    ((recordRequest (sampleRd 500 1) initialMetrics).requests.errors =
        initialMetrics.requests.errors + 1 ∧
      (recordRequest (sampleRd 500 1) initialMetrics).requests.success =
        initialMetrics.requests.success) :=
  ⟨statusCode_classification.1 initialMetrics (sampleRd 200 1) (by decide) (by decide),
    statusCode_classification.2.1 initialMetrics (sampleRd 500 1) (by decide)⟩

/-! ### The response-time buffer: `push` then `slice(-1000)` keeps the last
1000 samples -/

/-- The last `n` elements of a list: what `array.slice(-n)` returns when the
array is longer than `n`, and the whole list otherwise. -/
def lastN (n : Nat) (l : List Nat) : List Nat := l.drop (l.length - n)

lemma lastN_of_length_le (n : Nat) (l : List Nat) (h : l.length ≤ n) :
    lastN n l = l := by
  unfold lastN
  rw [Nat.sub_eq_zero_of_le h, List.drop_zero]

lemma length_lastN (n : Nat) (l : List Nat) :
    (lastN n l).length = min l.length n := by
  unfold lastN
  rw [List.length_drop]
  omega

/-- One `push`-then-`slice` step on a buffer that is already the last 1000
of the history `ts` produces the last 1000 of the history `ts ++ [t]`. -/
lemma slice_lastN (ts : List Nat) (t : Nat) :
    (if 1000 < (lastN 1000 ts ++ [t]).length
        then (lastN 1000 ts ++ [t]).drop ((lastN 1000 ts ++ [t]).length - 1000)
        else lastN 1000 ts ++ [t]) =
      lastN 1000 (ts ++ [t]) := by
  rcases le_or_lt ts.length 999 with h | h
  · rw [lastN_of_length_le 1000 ts (by omega)]
    have hlen : (ts ++ [t]).length = ts.length + 1 := by simp
    rw [if_neg (by omega)]
    exact (lastN_of_length_le 1000 (ts ++ [t]) (by omega)).symm
  · have hlen : (lastN 1000 ts).length = 1000 := by rw [length_lastN]; omega
    have hlen1 : (lastN 1000 ts ++ [t]).length = 1001 := by simp [hlen]
    rw [if_pos (by omega), hlen1]
    show (lastN 1000 ts ++ [t]).drop 1 = _
    rw [List.drop_append_of_le_length (by rw [hlen]; omega)]
    unfold lastN
    have hidx : ts.length - 1000 + 1 = (ts ++ [t]).length - 1000 := by
      simp; omega
    rw [List.drop_drop, hidx,
      List.drop_append_of_le_length (by simp)]

/-- Along any fold of `recordRequest` calls, the buffer is the last 1000
entries of the full sample history. -/
lemma applyFrom_responseTimes :
    ∀ (rds : List RequestData) (ts : List Nat) (s : MetricsState),
      s.performance.responseTimes = lastN 1000 ts →
      (applyFrom s rds).performance.responseTimes =
        lastN 1000 (ts ++ rds.map fun rd => rd.responseTime) := by
  intro rds
  induction rds with
  | nil => intro ts s hs; simpa using hs
  | cons rd rds ih =>
      intro ts s hs
      have hstep : (recordRequest rd s).performance.responseTimes =
          lastN 1000 (ts ++ [rd.responseTime]) := by
        rw [recordRequest_responseTimes, hs]
        exact slice_lastN ts rd.responseTime
      have := ih (ts ++ [rd.responseTime]) (recordRequest rd s) hstep
      show (applyFrom (recordRequest rd s) rds).performance.responseTimes = _
      rw [this]
      simp [List.append_assoc]

/-- From the fresh store, the buffer equals the last 1000 recorded samples. -/
lemma applyAll_responseTimes (rds : List RequestData) :
    (applyAll rds).performance.responseTimes =
      lastN 1000 (rds.map fun rd => rd.responseTime) := by
  have := applyFrom_responseTimes rds [] initialMetrics rfl
  simpa using this

/-! ### Running min/max versus buffer min/max -/

/-- The true minimum of a sample buffer; `⊤` (the `Infinity` sentinel,
"no samples yet") when the buffer is empty. -/
def bufferMin (l : List Nat) : WithTop Nat :=
  l.foldl (fun (m : WithTop Nat) (t : Nat) => min m (t : WithTop Nat)) ⊤

/-- The true maximum of a sample buffer; `0` when the buffer is empty
(matching the source's initial `maxResponseTime`, and every sample is a
non-negative integer). -/
def bufferMax (l : List Nat) : Nat :=
  l.foldl max 0

lemma bufferMin_cons (t : Nat) (l : List Nat) :
    bufferMin (t :: l) =
      l.foldl (fun (m : WithTop Nat) (u : Nat) => min m (u : WithTop Nat)) (min ⊤ (t : WithTop Nat)) := rfl

lemma foldl_min_acc (l : List Nat) :
    ∀ m : WithTop Nat,
      l.foldl (fun (m : WithTop Nat) (u : Nat) => min m (u : WithTop Nat)) m = min m (bufferMin l) := by
  induction l with
  | nil => intro m; simp [bufferMin]
  | cons t l ih =>
      intro m
      show l.foldl _ (min m (t : WithTop Nat)) = _
      rw [ih (min m (t : WithTop Nat)), bufferMin_cons,
        ih (min ⊤ (t : WithTop Nat)), min_eq_right le_top, min_assoc]

lemma bufferMax_cons (t : Nat) (l : List Nat) :
    bufferMax (t :: l) = l.foldl max (max 0 t) := rfl

lemma foldl_max_acc (l : List Nat) :
    ∀ m : Nat, l.foldl max m = max m (bufferMax l) := by
  induction l with
  | nil => intro m; simp [bufferMax]
  | cons t l ih =>
      intro m
      show l.foldl max (max m t) = _
      rw [ih (max m t), bufferMax_cons, ih (max 0 t), Nat.zero_max, max_assoc]

/-- Along any fold of `recordRequest` calls, `minResponseTime` is the
running minimum over the accumulator and all samples of the fold. -/
lemma applyFrom_minResponseTime :
    ∀ (rds : List RequestData) (s : MetricsState),
      (applyFrom s rds).performance.minResponseTime =
        (rds.map fun rd => rd.responseTime).foldl
          (fun (m : WithTop Nat) (t : Nat) => min m (t : WithTop Nat)) s.performance.minResponseTime := by
  intro rds
  induction rds with
  | nil => intro s; rfl
  | cons rd rds ih =>
      intro s
      show (applyFrom (recordRequest rd s) rds).performance.minResponseTime = _
      rw [ih (recordRequest rd s), recordRequest_minResponseTime]
      rfl

/-- Along any fold of `recordRequest` calls, `maxResponseTime` is the
running maximum over the accumulator and all samples of the fold. -/
lemma applyFrom_maxResponseTime :
    ∀ (rds : List RequestData) (s : MetricsState),
      (applyFrom s rds).performance.maxResponseTime =
        (rds.map fun rd => rd.responseTime).foldl max
          s.performance.maxResponseTime := by
  intro rds
  induction rds with
  | nil => intro s; rfl
  | cons rd rds ih =>
      intro s
      show (applyFrom (recordRequest rd s) rds).performance.maxResponseTime = _
      rw [ih (recordRequest rd s), recordRequest_maxResponseTime]
      rfl

/-- C3 (amended): after any sequence of `recordRequest` calls,
`minResponseTime`/`maxResponseTime` are the running min/max over ALL samples
recorded since creation (FIFO eviction never updates them); they equal the
true min/max of the current buffer whenever at most 1000 samples have been
recorded, i.e. while no eviction has occurred. -/
theorem min_max_are_running_extrema (rds : List RequestData) :
    (applyAll rds).performance.minResponseTime =
        bufferMin (rds.map fun rd => rd.responseTime) ∧
    (applyAll rds).performance.maxResponseTime =
        bufferMax (rds.map fun rd => rd.responseTime) ∧
    (rds.length ≤ 1000 →
      (applyAll rds).performance.minResponseTime =
          bufferMin ((applyAll rds).performance.responseTimes) ∧
      (applyAll rds).performance.maxResponseTime =
          bufferMax ((applyAll rds).performance.responseTimes)) := by
  have hmin : (applyAll rds).performance.minResponseTime =
      bufferMin (rds.map fun rd => rd.responseTime) := by
    rw [show applyAll rds = applyFrom initialMetrics rds from rfl,
      applyFrom_minResponseTime, foldl_min_acc]
    exact min_eq_right le_top
  have hmax : (applyAll rds).performance.maxResponseTime =
      bufferMax (rds.map fun rd => rd.responseTime) := by
    rw [show applyAll rds = applyFrom initialMetrics rds from rfl,
      applyFrom_maxResponseTime, foldl_max_acc]
    exact Nat.zero_max _
  refine ⟨hmin, hmax, fun hlen => ?_⟩
  have hbuf : (applyAll rds).performance.responseTimes =
      rds.map fun rd => rd.responseTime := by
    rw [applyAll_responseTimes]
    exact lastN_of_length_le 1000 _ (by rw [List.length_map]; exact hlen)
  rw [hbuf]
  exact ⟨hmin, hmax⟩

/-- Witness for the conditional part of the amended C3, at two samples. -/
theorem min_max_are_running_extrema_witness :
    (applyAll [sampleRd 200 3, sampleRd 200 7]).performance.minResponseTime =
        bufferMin ((applyAll [sampleRd 200 3, sampleRd 200 7]).performance.responseTimes) ∧
    (applyAll [sampleRd 200 3, sampleRd 200 7]).performance.maxResponseTime =
        bufferMax ((applyAll [sampleRd 200 3, sampleRd 200 7]).performance.responseTimes) :=
  (min_max_are_running_extrema [sampleRd 200 3, sampleRd 200 7]).2.2 (by decide)

/-! ### C3 counterexample: eviction leaves the running min stale -/

/-- A sample history that overflows the 1000-sample buffer: one 1 ms sample
followed by 1000 samples of 5 ms; the 1 ms sample is evicted at the end. -/
def overflowSeq : List RequestData :=
  sampleRd 200 1 :: List.replicate 1000 (sampleRd 200 5)

lemma overflowSeq_times :
    overflowSeq.map (fun rd => rd.responseTime) = 1 :: List.replicate 1000 5 := by
  unfold overflowSeq
  rw [List.map_cons, List.map_replicate]
  rfl

lemma overflow_buffer :
    (applyAll overflowSeq).performance.responseTimes = List.replicate 1000 5 := by
  rw [applyAll_responseTimes, overflowSeq_times]
  show (1 :: List.replicate 1000 5).drop ((1 :: List.replicate 1000 5).length - 1000) = _
  have hlen : (1 :: List.replicate 1000 5).length - 1000 = 1 := by
    rw [List.length_cons, List.length_replicate]
  rw [hlen]
  rfl

lemma bufferMin_replicate (n a : Nat) :
    bufferMin (List.replicate (n + 1) a) = (a : WithTop Nat) := by
  induction n with
  | zero => simp [bufferMin]
  | succ n ih =>
      rw [List.replicate_succ, bufferMin_cons, foldl_min_acc, ih,
        min_eq_right le_top, min_self]

lemma overflow_min :
    (applyAll overflowSeq).performance.minResponseTime = ((1 : Nat) : WithTop Nat) := by
  rw [show applyAll overflowSeq = applyFrom initialMetrics overflowSeq from rfl,
    applyFrom_minResponseTime, overflowSeq_times]
  show (1 :: List.replicate 1000 5).foldl
    (fun (m : WithTop Nat) (t : Nat) => min m (t : WithTop Nat)) ⊤ = _
  rw [List.foldl_cons, foldl_min_acc, bufferMin_replicate 999 5,
    min_eq_right le_top]
  exact min_eq_left (WithTop.coe_le_coe.mpr (by omega))

/-- C3 counterexample: after recording 1 ms and then 1000 samples of 5 ms,
the buffer holds only the 5 ms samples, but `minResponseTime` is still 1 ms
— it is NOT the minimum of the currently buffered samples. -/
theorem min_differs_from_buffer_min :
    (applyAll overflowSeq).performance.minResponseTime ≠
      bufferMin ((applyAll overflowSeq).performance.responseTimes) := by
  rw [overflow_min, overflow_buffer,
    show bufferMin (List.replicate 1000 5) = ((5 : Nat) : WithTop Nat) from
      bufferMin_replicate 999 5]
  decide

/-! ### C5: the average is over the current buffer, rounded -/

lemma recordRequest_averageResponseTime (rd : RequestData) (s : MetricsState) :
    (recordRequest rd s).performance.averageResponseTime =
      jsRound ((recordRequest rd s).performance.responseTimes.foldl
          (fun sum t => sum + t) 0)
        (recordRequest rd s).performance.responseTimes.length := rfl

lemma applyAll_averageResponseTime (rds : List RequestData) :
    (applyAll rds).performance.averageResponseTime =
      jsRound ((applyAll rds).performance.responseTimes.foldl
          (fun sum t => sum + t) 0)
        (applyAll rds).performance.responseTimes.length := by
  refine applyFrom_inv
    (fun s => s.performance.averageResponseTime =
      jsRound (s.performance.responseTimes.foldl (fun sum t => sum + t) 0)
        s.performance.responseTimes.length) ?_ rds initialMetrics rfl
  intro s rd _
  exact recordRequest_averageResponseTime rd s

/-- The concrete scenario of the spec: three successes at 100/200/300 ms and
one error at 500 ms. -/
def scenarioSeq : List RequestData :=
  [sampleRd 200 100, sampleRd 200 200, sampleRd 200 300, sampleRd 500 500]

/-- C5 (amended): after any sequence of `recordRequest` calls the buffer
holds exactly the most recent `min(n, 1000)` latencies (oldest evicted
first) and `averageResponseTime` equals `sum/count` over that buffer rounded
half-up to an integer (`Math.round`); the spec's concrete scenario holds
exactly. -/
theorem average_over_current_buffer (rds : List RequestData) :
    (applyAll rds).performance.responseTimes =
        lastN 1000 (rds.map fun rd => rd.responseTime) ∧
    (applyAll rds).performance.averageResponseTime =
        jsRound ((applyAll rds).performance.responseTimes).sum
          ((applyAll rds).performance.responseTimes).length ∧
    ((applyAll scenarioSeq).requests.total = 4 ∧
      (applyAll scenarioSeq).requests.success = 3 ∧
      (applyAll scenarioSeq).requests.errors = 1 ∧
      (applyAll scenarioSeq).performance.averageResponseTime = 275 ∧
      (applyAll scenarioSeq).performance.minResponseTime = ((100 : Nat) : WithTop Nat) ∧
      (applyAll scenarioSeq).performance.maxResponseTime = 500) := by
  refine ⟨applyAll_responseTimes rds, ?_, by decide⟩
  rw [applyAll_averageResponseTime, List.sum_eq_foldl]

/-- C5 counterexample: with samples 1 ms and 2 ms the stored average is 2
(`Math.round(1.5)`), which differs from the exact mean `3/2` of the buffer. -/
theorem average_not_exact_mean :
    ((applyAll [sampleRd 200 1, sampleRd 200 2]).performance.averageResponseTime : ℚ) ≠
      (((applyAll [sampleRd 200 1, sampleRd 200 2]).performance.responseTimes.map
          (fun t => (t : ℚ))).sum /
        ((applyAll [sampleRd 200 1, sampleRd 200 2]).performance.responseTimes.length : ℚ)) := by
  have h1 : (applyAll [sampleRd 200 1, sampleRd 200 2]).performance.averageResponseTime = 2 := by
    decide
  have h2 : (applyAll [sampleRd 200 1, sampleRd 200 2]).performance.responseTimes = [1, 2] := by
    decide
  rw [h1, h2]
  norm_num

/-! ### C4: the health verdict -/

/-- C4 (amended): `getHealthSummary` reports healthy iff the ROUNDED integer
success percentage `Math.round(100 * success / total)` is at least 95 —
equivalently, iff the exact success rate is at least 94.5%, i.e.
`200 * success ≥ 189 * total` — with the no-traffic state (`total = 0`)
healthy, AND the stored average response time is strictly below 1000 ms. -/
theorem healthy_iff (s : MetricsState) :
    (getHealthSummary s).healthy = true ↔
      ((s.requests.total = 0 ∨ 189 * s.requests.total ≤ 200 * s.requests.success) ∧
        s.performance.averageResponseTime < 1000) := by
  show (decide (95 ≤ (if 0 < s.requests.total
        then jsRound (100 * s.requests.success) s.requests.total else 100)) &&
      decide (s.performance.averageResponseTime < 1000)) = true ↔ _
  rw [Bool.and_eq_true, decide_eq_true_iff, decide_eq_true_iff]
  rcases Nat.eq_zero_or_pos s.requests.total with h0 | hpos
  · rw [if_neg (by omega)]
    omega
  · rw [if_pos hpos]
    unfold jsRound
    rw [Nat.le_div_iff_mul_le (by omega : 0 < 2 * s.requests.total)]
    omega

/-- 18 successes and one error: the exact success rate is 18/19 ≈ 94.74%. -/
def lowRateSeq : List RequestData :=
  List.replicate 18 (sampleRd 200 1) ++ [sampleRd 500 1]

/-- C4 counterexample: with 18 successes out of 19 requests the exact
success rate is below 95%, yet `getHealthSummary` reports healthy, because
the code applies the 95 threshold to the rounded percentage
(`Math.round(94.73...) = 95`). -/
theorem healthy_despite_rate_below_95 :
    (getHealthSummary (applyAll lowRateSeq)).healthy = true ∧
      100 * (applyAll lowRateSeq).requests.success <
        95 * (applyAll lowRateSeq).requests.total := by
  decide

/-! ### C6: `getMetrics` returns a SHALLOW copy that aliases the live
buffers.

Model of the JS reference semantics of `getMetrics()` (lines 104-109):
`this.metrics` is an object whose fields `requests`, `performance` and
`recentRequests` are references to mutable heap objects; the spread
`{ ...this.metrics }` copies the field VALUES — i.e. those references,
not the objects they point to. -/

/-- `this.metrics` viewed at the reference level. -/
structure MetricsRefs where
  requestsRef : Nat
  performanceRef : Nat
  recentRequestsRef : Nat
  deriving DecidableEq

/-- The object returned by `getMetrics()` viewed at the reference level. -/
structure SnapshotObj where
  requestsRef : Nat
  performanceRef : Nat
  recentRequestsRef : Nat
  timestamp : Int
  deriving DecidableEq

/-- `getMetrics()` = `{ ...this.metrics, timestamp: new Date().toISOString() }`:
the spread copies the three references and adds a fresh timestamp. -/
def getMetrics (m : MetricsRefs) (now : Int) : SnapshotObj :=
  { requestsRef := m.requestsRef
    performanceRef := m.performanceRef
    recentRequestsRef := m.recentRequestsRef
    timestamp := now }

/-- A heap of JS arrays of request records, addressed by reference. -/
def RecordHeap : Type := Nat → List RequestRecord

/-- `arr.unshift(x)` performed on the array behind reference `ref`. -/
def unshiftAt (h : RecordHeap) (ref : Nat) (x : RequestRecord) : RecordHeap :=
  fun a => if a = ref then x :: h a else h a

/-- C6 is violated by the code: the snapshot returned by `getMetrics` holds
the very same references as the live `this.metrics` (a shallow copy), so a
caller mutating the snapshot's `recentRequests` array mutates the
aggregator's own buffer: after `snapshot.recentRequests.unshift(x)` the
store reads back `x` at the head of its own buffer. -/
theorem getMetrics_aliases_buffers :
    (∀ (m : MetricsRefs) (now : Int),
        (getMetrics m now).recentRequestsRef = m.recentRequestsRef ∧
        (getMetrics m now).requestsRef = m.requestsRef ∧
        (getMetrics m now).performanceRef = m.performanceRef) ∧
    (∀ (m : MetricsRefs) (now : Int) (hp : RecordHeap) (x : RequestRecord),
        unshiftAt hp (getMetrics m now).recentRequestsRef x m.recentRequestsRef =
          x :: hp m.recentRequestsRef) := by
  refine ⟨fun m now => ⟨rfl, rfl, rfl⟩, fun m now hp x => ?_⟩
  show (if m.recentRequestsRef = m.recentRequestsRef
    then x :: hp m.recentRequestsRef else hp m.recentRequestsRef) = _
  rw [if_pos rfl]

/-! ### C7: `recentRequests` keeps the 50 most recent records,
most-recent-first -/

/-- One `unshift`-then-`slice(0, 50)` step applied to a list that is already
a 50-truncation produces the 50-truncation of the longer list. -/
lemma cons_take_capacity (r : RequestRecord) (done : List RequestRecord) (n : Nat) :
    (if n + 1 < (r :: done.take (n + 1)).length
        then (r :: done.take (n + 1)).take (n + 1)
        else r :: done.take (n + 1)) =
      (r :: done).take (n + 1) := by
  rcases le_or_lt done.length n with h | h
  · have ht : done.take (n + 1) = done := List.take_of_length_le (by omega)
    rw [ht, if_neg (by rw [List.length_cons]; omega)]
    exact (List.take_of_length_le (by rw [List.length_cons]; omega)).symm
  · have hlen : (r :: done.take (n + 1)).length = n + 2 := by
      rw [List.length_cons, List.length_take]
      omega
    rw [if_pos (by omega), List.take_succ_cons, List.take_succ_cons,
      List.take_take]
    have hmin : min n (n + 1) = n := by omega
    rw [hmin]

/-- Along any fold of `recordRequest` calls, `recentRequests` is the
50-truncation of the record history, most recent first. -/
lemma applyFrom_recentRequests :
    ∀ (rds : List RequestData) (done : List RequestRecord) (s : MetricsState),
      s.recentRequests = done.take 50 →
      (applyFrom s rds).recentRequests =
        ((rds.map toRecord).reverse ++ done).take 50 := by
  intro rds
  induction rds with
  | nil => intro done s hs; simpa using hs
  | cons rd rds ih =>
      intro done s hs
      have hstep : (recordRequest rd s).recentRequests =
          (toRecord rd :: done).take 50 := by
        rw [recordRequest_recentRequests, hs]
        exact cons_take_capacity (toRecord rd) done 49
      have := ih (toRecord rd :: done) (recordRequest rd s) hstep
      show (applyFrom (recordRequest rd s) rds).recentRequests = _
      rw [this, List.map_cons, List.reverse_cons, List.append_assoc]
      rfl

/-- C7: after every sequence of `recordRequest` calls, `recentRequests` is
exactly the 50 most recently inserted records in most-recent-first order
(the oldest evicted first), so its length is `min n 50` and never exceeds
50. -/
theorem recentRequests_latest_50 (rds : List RequestData) :
    (applyAll rds).recentRequests = ((rds.map toRecord).reverse).take 50 ∧
    (applyAll rds).recentRequests.length = min rds.length 50 ∧
    (applyAll rds).recentRequests.length ≤ 50 := by
  have h : (applyAll rds).recentRequests = ((rds.map toRecord).reverse).take 50 := by
    have := applyFrom_recentRequests rds [] initialMetrics rfl
    simpa using this
  refine ⟨h, ?_, ?_⟩
  · rw [h, List.length_take, List.length_reverse, List.length_map]
    omega
  · rw [h, List.length_take]
    omega

/-! ### C8/C10: the request-rate recomputation and the peak invariant -/

/-- Spec-side trailing-window membership: the timestamp lies within the 60
seconds before `now`. -/
def inWindow (now : Int) (r : RequestRecord) : Bool :=
  decide (now - 60000 ≤ r.timestamp) && decide (r.timestamp ≤ now)

lemma calc_perMinute (now : Int) (s : MetricsState) :
    (calculateRequestsPerMinute now s).requests.perMinute =
      (s.recentRequests.filter
        (fun r => decide (now - 60000 ≤ r.timestamp))).length := rfl

lemma calc_peakRPM (now : Int) (s : MetricsState) :
    (calculateRequestsPerMinute now s).requests.peakRPM =
      if s.requests.peakRPM <
          (s.recentRequests.filter
            (fun r => decide (now - 60000 ≤ r.timestamp))).length
        then (s.recentRequests.filter
          (fun r => decide (now - 60000 ≤ r.timestamp))).length
        else s.requests.peakRPM := rfl

lemma le_if_max (p c : Nat) :
    c ≤ (if p < c then c else p) ∧ p ≤ (if p < c then c else p) := by
  by_cases h : p < c
  · rw [if_pos h]
    omega
  · rw [if_neg h]
    omega

/-- The operations that mutate the aggregator state. -/
inductive Op where
  | record : RequestData → Op
  | recomputeRate : Int → Op
  | reset : Op
  deriving DecidableEq

/-- One mutation of the store. -/
def step : MetricsState → Op → MetricsState
  | s, Op.record rd => recordRequest rd s
  | s, Op.recomputeRate now => calculateRequestsPerMinute now s
  | s, Op.reset => resetMetrics s

/-- A sequence of mutations from the freshly constructed store. -/
def run (ops : List Op) : MetricsState := ops.foldl step initialMetrics

lemma run_inv (P : MetricsState → Prop) (h0 : P initialMetrics)
    (hstep : ∀ s op, P s → P (step s op)) : ∀ ops : List Op, P (run ops) := by
  have aux : ∀ (ops : List Op) (s : MetricsState), P s → P (ops.foldl step s) := by
    intro ops
    induction ops with
    | nil => intro s hs; exact hs
    | cons op ops ih => intro s hs; exact ih (step s op) (hstep s op hs)
  intro ops
  exact aux ops initialMetrics h0

/-- C8: when the store's recorded timestamps are not in the future, the
rate recomputation sets `perMinute` to exactly the number of buffered
records inside the trailing 60-second window; along every operation
sequence `perMinute ≤ peakRPM`, and no operation other than `reset` ever
decreases `peakRPM`. -/
theorem requestRate_and_peak :
    (∀ (s : MetricsState) (now : Int) (N : Nat),
        (∀ r ∈ s.recentRequests, r.timestamp ≤ now) →
        (s.recentRequests.filter (inWindow now)).length = N →
        (calculateRequestsPerMinute now s).requests.perMinute = N) ∧
    (∀ ops : List Op,
        (run ops).requests.perMinute ≤ (run ops).requests.peakRPM) ∧
    (∀ (s : MetricsState) (op : Op), op ≠ Op.reset →
        s.requests.peakRPM ≤ (step s op).requests.peakRPM) := by
  refine ⟨?_, ?_, ?_⟩
  · intro s now N hpast hN
    rw [calc_perMinute, ← hN]
    congr 1
    refine List.filter_congr ?_
    intro r hr
    unfold inWindow
    rw [decide_eq_true (hpast r hr), Bool.and_true]
  · refine run_inv (fun s => s.requests.perMinute ≤ s.requests.peakRPM)
      (by decide) ?_
    intro s op hs
    cases op with
    | record rd =>
        show (recordRequest rd s).requests.perMinute ≤
          (recordRequest rd s).requests.peakRPM
        rw [recordRequest_perMinute, recordRequest_peakRPM]
        exact hs
    | recomputeRate now =>
        show (calculateRequestsPerMinute now s).requests.perMinute ≤
          (calculateRequestsPerMinute now s).requests.peakRPM
        rw [calc_perMinute, calc_peakRPM]
        exact (le_if_max s.requests.peakRPM
          (s.recentRequests.filter
            (fun r => decide (now - 60000 ≤ r.timestamp))).length).1
    | reset => exact Nat.le_refl 0
  · intro s op hne
    cases op with
    | record rd =>
        show s.requests.peakRPM ≤ (recordRequest rd s).requests.peakRPM
        rw [recordRequest_peakRPM]
    | recomputeRate now =>
        show s.requests.peakRPM ≤ (calculateRequestsPerMinute now s).requests.peakRPM
        rw [calc_peakRPM]
        exact (le_if_max s.requests.peakRPM
          (s.recentRequests.filter
            (fun r => decide (now - 60000 ≤ r.timestamp))).length).2
    | reset => exact absurd rfl hne

/-- Witness for C8: one record at timestamp 0, recomputed at `now = 30000`
(the record is 30 s old, inside the window), gives `perMinute = 1`; the
peak invariant and peak monotonicity hold on concrete runs. -/
theorem requestRate_and_peak_witness :
    (calculateRequestsPerMinute 30000 (applyAll [sampleRd 200 1])).requests.perMinute = 1 ∧
    (run [Op.record (sampleRd 200 1), Op.recomputeRate 30000]).requests.perMinute ≤
      (run [Op.record (sampleRd 200 1), Op.recomputeRate 30000]).requests.peakRPM ∧
    initialMetrics.requests.peakRPM ≤
      (step initialMetrics (Op.record (sampleRd 200 1))).requests.peakRPM :=
  ⟨requestRate_and_peak.1 (applyAll [sampleRd 200 1]) 30000 1 (by decide) (by decide),
    requestRate_and_peak.2.1 [Op.record (sampleRd 200 1), Op.recomputeRate 30000],
    requestRate_and_peak.2.2 initialMetrics (Op.record (sampleRd 200 1)) (by decide)⟩

/-! ### C9: reset restores the freshly-created state -/

/-- C9: `resetMetrics` returns the aggregator to the constructor state —
all counters zero, both buffers empty, min back to the `Infinity` sentinel,
max and average back to 0 — and a `recordRequest` performed after a reset
yields exactly the state it would yield on a freshly created store. -/
theorem reset_restores_initial_state :
    (∀ s : MetricsState, resetMetrics s = initialMetrics) ∧
    (∀ s : MetricsState,
        (resetMetrics s).requests.total = 0 ∧
        (resetMetrics s).requests.success = 0 ∧
        (resetMetrics s).requests.errors = 0 ∧
        (resetMetrics s).requests.perMinute = 0 ∧
        (resetMetrics s).requests.peakRPM = 0 ∧
        (resetMetrics s).performance.responseTimes = [] ∧
        (resetMetrics s).performance.averageResponseTime = 0 ∧
        (resetMetrics s).performance.minResponseTime = ⊤ ∧
        (resetMetrics s).performance.maxResponseTime = 0 ∧
        (resetMetrics s).recentRequests = []) ∧
    (∀ (s : MetricsState) (rd : RequestData),
        recordRequest rd (resetMetrics s) = recordRequest rd initialMetrics) :=
  ⟨fun _ => rfl,
    fun _ => ⟨rfl, rfl, rfl, rfl, rfl, rfl, rfl, rfl, rfl, rfl⟩,
    fun _ _ => rfl⟩

/-! ### C10: `recordRequest` never touches the rate fields -/

/-- C10: `recordRequest` leaves `perMinute` and `peakRPM` unchanged; more
generally, any store operation that is neither the rate recomputation nor a
reset leaves both fields unchanged. -/
theorem recordRequest_frames_rate_fields :
    (∀ (s : MetricsState) (rd : RequestData),
        (recordRequest rd s).requests.perMinute = s.requests.perMinute ∧
        (recordRequest rd s).requests.peakRPM = s.requests.peakRPM) ∧
    (∀ (s : MetricsState) (op : Op), op ≠ Op.reset →
        (∀ now : Int, op ≠ Op.recomputeRate now) →
        (step s op).requests.perMinute = s.requests.perMinute ∧
        (step s op).requests.peakRPM = s.requests.peakRPM) := by
  refine ⟨fun s rd => ⟨recordRequest_perMinute rd s, recordRequest_peakRPM rd s⟩, ?_⟩
  intro s op h1 h2
  cases op with
  | record rd => exact ⟨recordRequest_perMinute rd s, recordRequest_peakRPM rd s⟩
  | recomputeRate now => exact absurd rfl (h2 now)
  | reset => exact absurd rfl h1

/-- Witness for C10 at a concrete record operation. -/
theorem recordRequest_frames_rate_fields_witness :
    (step initialMetrics (Op.record (sampleRd 200 1))).requests.perMinute =
        initialMetrics.requests.perMinute ∧
      (step initialMetrics (Op.record (sampleRd 200 1))).requests.peakRPM =
        initialMetrics.requests.peakRPM :=
  recordRequest_frames_rate_fields.2 initialMetrics (Op.record (sampleRd 200 1))
    (by decide) (fun _ h => nomatch h)

end MetricsStore
